import Mathlib

/-!
# GithubAuto: a shallow embedding of `main.go`

The program is a command-line client: it parses six flags, selects one
operation, loads a token from `github_token.txt`, issues one authenticated GET
and renders the decoded answer.

Modelling conventions.

* Go `string` and `[]byte` values are sequences of symbols, modelled by `String`;
  the conversions `[]byte(s)` and `string(b)` are the identity on them.
* Everything the program does to the outside (terminal, token file, network,
  response body) is recorded, in program order, in `World.trace`.
* Library behaviour that the source does not fix (what `fmt.Scanln` reads, what
  the server answers, what `encoding/json` makes of a body) is a field of `Env`.
* `os.Exit`, `log.Fatalf` and run-time panics end the run: `Result.halt`.
-/

namespace GithubAuto

/-! ## Values -/

/-- Colours exported by the `colors` package and used by `main.go`. -/
inductive Color
  | YELLOW | CYAN | GREY | GREEN | BLUE | MAGENTA | PURPLE | RED
  deriving DecidableEq, Repr

/-- Dynamic values produced by decoding JSON into `interface{}`:
`nil`, `bool`, `float64`, `string`, `[]interface{}`, `map[string]interface{}`.
The payload of a `float64` is never inspected by the program. -/
inductive JSON
  | null
  | bool (b : Bool)
  | float64 (bits : Nat)
  | str (s : String)
  | array (xs : List JSON)
  | object (kvs : List (String × JSON))

/-- Dynamic type name, as printed in a failed type assertion. -/
def JSON.typeName : JSON → String
  | .null => "nil"
  | .bool _ => "bool"
  | .float64 _ => "float64"
  | .str _ => "string"
  | .array _ => "[]interface \x7b\x7d"
  | .object _ => "map[string]interface \x7b\x7d"

/-- Map index expression `m[key]` on a decoded object: the zero value (`nil`)
when the key is absent, also on a nil map. -/
def index : List (String × JSON) → String → JSON
  | [], _ => JSON.null
  | (k, v) :: rest, key => if k = key then v else index rest key

/-- The `Repository` struct (lines 22-37). -/
structure Repository where
  Name : String
  Description : String
  OwnerLogin : String
  Language : String
  DefaultBranch : String
  LicenseName : String
  Size : Int
  Stars : Int
  Forks : Int
  Url : String
  deriving DecidableEq, Repr

/-- The `Issue` struct (lines 46-54). -/
structure Issue where
  Title : String
  State : String
  URL : String
  Labels : List String
  CreatedAt : String
  deriving DecidableEq, Repr

/-- The `Notification` struct (lines 57-64). -/
structure Notification where
  ID : String
  SubjectTitle : String
  SubjectURL : String
  UpdatedAt : String
  deriving DecidableEq, Repr

def apiURL : String := "https://api.github.com"

def repoNameFormat : String := "Repository Name: %s\n"

def descriptionFormat : String := "Description: %s\n"

def urlFormat : String := "URL: %s\n"

/-! ## The outside world -/

/-- An operand of a `Printf` call. -/
inductive Arg
  | str (s : String)
  | int (n : Int)
  | any (v : JSON)
  | labels (names : List String)

/-- One interaction of the program with the outside, in the order made. -/
inductive Event
  | Print (c : Color) (s : String)
  | Println (c : Color) (s : String)
  | Printf (c : Color) (format : String) (args : List Arg)
  | Scanln
  | ReadFile
  | WriteFile (data : String)
  | httpGet (url : String) (authorization : String)
  | ReadAll
  | Decode
  | Close
  | Fatalf (msg : String)

/-- A `colors.X.Printf` call: the only way a record field reaches the terminal. -/
def Event.isRender : Event → Bool
  | .Printf _ _ _ => true
  | _ => false

/-- An HTTP request leaving the process. -/
def Event.isRequest : Event → Bool
  | .httpGet _ _ => true
  | _ => false

/-- A call of `json.Decoder.Decode`. -/
def Event.isDecode : Event → Bool
  | .Decode => true
  | _ => false

/-- A `log.Fatalf` message. -/
def Event.fatalMsg : Event → Option String
  | .Fatalf msg => some msg
  | _ => none

/-- State of `github_token.txt`: missing, or present with its content and
the two owner permission bits that `os.ReadFile` and `os.WriteFile` need. -/
inductive TokenFile
  | absent
  | present (content : String) (readable writable : Bool)
  deriving DecidableEq, Repr

/-- Mutable state: the token file, whether the working directory accepts a
new file, the package variable `token`, and the trace of interactions. -/
structure World where
  tokenFile : TokenFile
  dirWritable : Bool
  token : String
  trace : List Event

/-- A response body: the text the stream delivers and the error, if any, that
ends it instead of a clean end of file. -/
structure Body where
  data : String
  err : Option String
  deriving DecidableEq, Repr

/-- The part of `http.Response` the program reads. -/
structure Response where
  Status : String
  StatusCode : Int
  Body : Body
  deriving DecidableEq, Repr

/-- Behaviour of the libraries and of the server, fixed for one run.
`Scanln` is the outcome of `fmt.Scanln(&inputToken)`; `NewRequest` the error of
`http.NewRequest`, if any; `Do` the outcome of `client.Do`; the `decode*` fields
are `json.NewDecoder(body).Decode(&v)` at the five target types, each giving the
error on failure. For the struct target the value left in `v` is also given,
because `showRepository` goes on to read it. `umask` is the file mode creation
mask of the process. -/
structure Env where
  Scanln : Except String String
  NewRequest : String → Option String
  Do : String → String → Except String Response
  decodeMap : Body → Except String (List (String × JSON))
  decodeRepository : Body → Repository × Option String
  decodeRepositories : Body → Except String (List Repository)
  decodeIssues : Body → Except String (List Issue)
  decodeNotifications : Body → Except String (List Notification)
  umask : Nat

/-- How a run ends early: `os.Exit(code)` or a run-time panic. -/
inductive Halt
  | exit (code : Nat)
  | panicked (msg : String)
  deriving DecidableEq, Repr

/-- Outcome of a computation: a value, or an early end, with the world reached. -/
inductive Result (α : Type)
  | ok (val : α) (w : World)
  | halt (h : Halt) (w : World)

/-- The world in which a computation ended. -/
def Result.world {α : Type} : Result α → World
  | .ok _ w => w
  | .halt _ w => w

/-- The early end, if any. -/
def Result.halted {α : Type} : Result α → Option Halt
  | .ok _ _ => none
  | .halt h _ => some h

/-- The value returned, if the computation returned. -/
def Result.value {α : Type} : Result α → Option α
  | .ok a _ => some a
  | .halt _ _ => none

/-- A computation of the program. -/
def Prog (α : Type) : Type := World → Result α

/-- Sequencing: an early end skips the rest. -/
def Prog.bind {α β : Type} (p : Prog α) (f : α → Prog β) : Prog β :=
  fun w =>
    match p w with
    | .ok a w1 => f a w1
    | .halt h w1 => .halt h w1

instance : Monad Prog where
  pure a := fun w => .ok a w
  bind := Prog.bind

/-- Record one interaction. -/
def emit (e : Event) : Prog Unit :=
  fun w => .ok () { w with trace := w.trace ++ [e] }

/-- Record several interactions. -/
def emitAll (es : List Event) : Prog Unit :=
  fun w => .ok () { w with trace := w.trace ++ es }

/-- The call `os.Exit(code)`: deferred calls do not run. -/
def Exit {α : Type} (code : Nat) : Prog α :=
  fun w => .halt (.exit code) w

/-- The call `log.Fatalf`: print the message, then `os.Exit(1)`. -/
def Fatalf {α : Type} (msg : String) : Prog α :=
  fun w => .halt (.exit 1) { w with trace := w.trace ++ [.Fatalf msg] }

/-- A run-time panic. -/
def goPanic {α : Type} (msg : String) : Prog α :=
  fun w => .halt (.panicked msg) w

/-- The statement `defer resp.Body.Close()` around the rest of a function: the
body is closed on return and on panic, not on `os.Exit`. -/
def deferClose {α : Type} (body : Prog α) : Prog α :=
  fun w =>
    match body w with
    | .ok a w1 => .ok a { w1 with trace := w1.trace ++ [.Close] }
    | .halt (.panicked m) w1 => .halt (.panicked m) { w1 with trace := w1.trace ++ [.Close] }
    | .halt (.exit c) w1 => .halt (.exit c) w1

/-! ## Credential store (lines 132-161) -/

/-- Error of a file operation, as far as `os.IsNotExist` tells them apart. -/
inductive FileErr
  | notExist
  | other (msg : String)
  deriving DecidableEq, Repr

/-- The method `err.Error()`. -/
def FileErr.Error : FileErr → String
  | .notExist => "no such file or directory"
  | .other msg => msg

/-- The test `os.IsNotExist(err)`. -/
def IsNotExist : FileErr → Bool
  | .notExist => true
  | .other _ => false

/-- Owner read bit (0400) of a file created with mode 0600 under the mask. -/
def createdReadable (umask : Nat) : Bool := umask / 256 % 2 == 0

/-- Owner write bit (0200) of a file created with mode 0600 under the mask. -/
def createdWritable (umask : Nat) : Bool := umask / 128 % 2 == 0

/-- The call `os.WriteFile("github_token.txt", data, 0600)`: a missing file
is created with mode 0600 less the bits of the umask, and written through the
descriptor that created it; an existing file is truncated and written without
changing its permissions, which needs write permission. -/
def WriteFile (env : Env) (data : String) : Prog (Option FileErr) :=
  fun w =>
    let w1 : World := { w with trace := w.trace ++ [.WriteFile data] }
    match w.tokenFile with
    | .absent =>
      let created : TokenFile :=
        .present data (createdReadable env.umask) (createdWritable env.umask)
      if w.dirWritable then .ok none { w1 with tokenFile := created }
      else .ok (some (.other "permission denied")) w1
    | .present _ r wr =>
      if wr then .ok none { w1 with tokenFile := .present data r wr }
      else .ok (some (.other "permission denied")) w1

/-- The call `os.ReadFile("github_token.txt")`: the data and the error. On a
missing or unreadable file the data is nil. -/
def ReadFile : Prog (String × Option FileErr) :=
  fun w =>
    let w1 : World := { w with trace := w.trace ++ [.ReadFile] }
    match w.tokenFile with
    | .absent => .ok ("", some .notExist) w1
    | .present c r _ =>
      if r then .ok (c, none) w1
      else .ok ("", some (.other "permission denied")) w1

/-- Lines 133-146. -/
def saveGitHubToken (env : Env) : Prog Unit := do
  emit (.Println .YELLOW "Enter your GitHub Personal Access Token: ")
  emit .Scanln
  match env.Scanln with
  | .error err => Fatalf ("Error reading token: " ++ err ++ "\n")
  | .ok inputToken =>
    let err ← WriteFile env inputToken
    match err with
    | some e => Fatalf ("Failed to save token: " ++ e.Error ++ "\n")
    | none => emit (.Println .GREEN "Token saved successfully!")

/-- Lines 149-161. Only the not-exist error is acted on; after any other
error the function returns `string(data)`. -/
def loadGitHubToken : Prog String := do
  let (data, err) ← ReadFile
  match err with
  | some e =>
    if IsNotExist e then
      emit (.Print .YELLOW "GitHub Token not found. Please save your token using the ")
      emit (.Print .GREY "-save-token")
      emit (.Println .YELLOW " flag.")
      Exit 1
  | none => pure ()
  return data

/-! ## API client (lines 164-176) -/

/-- Assignment to the package variable `token`. -/
def setToken (t : String) : Prog Unit :=
  fun w => .ok () { w with token := t }

/-- Read of the package variable `token`. -/
def getToken : Prog String :=
  fun w => .ok w.token w

/-- Lines 164-176. -/
def makeGitHubRequest (env : Env) (url : String) : Prog (Except String Response) := do
  let t ← loadGitHubToken
  setToken t
  match env.NewRequest url with
  | some err => Fatalf ("Error creating request: " ++ err ++ "\n")
  | none =>
    let tok ← getToken
    emit (.httpGet url ("token " ++ tok))
    return env.Do url ("token " ++ tok)

/-- The call `io.ReadAll(resp.Body)`: the data read and the error. -/
def ReadAll (b : Body) : Prog (String × Option String) := do
  emit .ReadAll
  return (b.data, b.err)

/-! ## Operations (lines 179-324) -/

/-- Type assertion `v.([]interface{})`. -/
def assertArray (v : JSON) : Prog (List JSON) :=
  match v with
  | .array xs => pure xs
  | other =>
    goPanic ("interface conversion: interface \x7b\x7d is " ++ other.typeName
      ++ ", not []interface \x7b\x7d")

/-- Type assertion `v.(map[string]interface{})`. -/
def assertObject (v : JSON) : Prog (List (String × JSON)) :=
  match v with
  | .object kvs => pure kvs
  | other =>
    goPanic ("interface conversion: interface \x7b\x7d is " ++ other.typeName
      ++ ", not map[string]interface \x7b\x7d")

/-- The loop of lines 193-201. -/
def searchItems : List JSON → Prog Unit
  | [] => pure ()
  | item :: rest => do
    let repo ← assertObject item
    emit (.Printf .BLUE repoNameFormat [.any (index repo "name")])
    emit (.Printf .CYAN descriptionFormat [.any (index repo "description")])
    let owner ← assertObject (index repo "owner")
    emit (.Printf .GREEN "Owner: %s\n" [.any (index owner "login")])
    emit (.Printf .MAGENTA "Stars: %v\n" [.any (index repo "stargazers_count")])
    emit (.Printf .YELLOW "Forks: %v\n\n" [.any (index repo "forks_count")])
    emit (.Printf .CYAN urlFormat [.any (index repo "html_url")])
    searchItems rest

/-- Lines 179-202. -/
def searchRepository (env : Env) (repoName : String) : Prog Unit := do
  let url := apiURL ++ "/search/repositories?q=" ++ repoName
  let r ← makeGitHubRequest env url
  match r with
  | .error err => Fatalf ("Error searching repository: " ++ err ++ "\n")
  | .ok resp =>
    deferClose do
      emit .Decode
      match env.decodeMap resp.Body with
      | .error err => Fatalf ("Error parsing response: " ++ err ++ "\n")
      | .ok result =>
        let items ← assertArray (index result "items")
        searchItems items

/-- The ten `Printf` calls of lines 224-233. -/
def renderRepository (repo : Repository) : List Event :=
  [ .Printf .BLUE repoNameFormat [.str repo.Name],
    .Printf .CYAN descriptionFormat [.str repo.Description],
    .Printf .GREEN "Owner: %s\n" [.str repo.OwnerLogin],
    .Printf .YELLOW "Language: %s\n" [.str repo.Language],
    .Printf .MAGENTA "Default Branch: %s\n" [.str repo.DefaultBranch],
    .Printf .PURPLE "License: %s\n" [.str repo.LicenseName],
    .Printf .GREY "Size: %d KB\n" [.int repo.Size],
    .Printf .RED "Stars: %d\n" [.int repo.Stars],
    .Printf .CYAN "Forks: %d\n" [.int repo.Forks],
    .Printf .GREEN urlFormat [.str repo.Url] ]

/-- Lines 205-234. The status test is `resp.StatusCode != http.StatusOK`, and
`http.StatusOK` is 200. The error of `io.ReadAll` is discarded. When `Decode`
fails the body of the `if` prints the name and the function carries on. -/
def showRepository (env : Env) (repoName : String) : Prog Unit := do
  let url := apiURL ++ "/repos/" ++ repoName
  let r ← makeGitHubRequest env url
  match r with
  | .error err => Fatalf ("Error showing repository: " ++ err ++ "\n")
  | .ok resp =>
    deferClose do
      if resp.StatusCode ≠ 200 then
        let (body, _) ← ReadAll resp.Body
        Fatalf ("GitHub API returned an error: " ++ resp.Status ++ "\nDetails: " ++ body)
      emit .Decode
      let (repo, err) := env.decodeRepository resp.Body
      if err.isSome then
        emit (.Printf .BLUE repoNameFormat [.str repo.Name])
      emitAll (renderRepository repo)

/-- The five `Printf` calls of lines 252-256 for one issue. -/
def renderIssue (issue : Issue) : List Event :=
  [ .Printf .YELLOW "Title: %s\n" [.str issue.Title],
    .Printf .RED "State: %s\n" [.str issue.State],
    .Printf .GREEN urlFormat [.str issue.URL],
    .Printf .CYAN "Labels: %v\n" [.labels issue.Labels],
    .Printf .MAGENTA "Created At: %s\n\n" [.str issue.CreatedAt] ]

/-- Lines 238-258. -/
def queryIssues (env : Env) (repoName : String) : Prog Unit := do
  let url := apiURL ++ "/repos/" ++ repoName ++ "/issues"
  let r ← makeGitHubRequest env url
  match r with
  | .error err => Fatalf ("Error querying issues: " ++ err ++ "\n")
  | .ok resp =>
    deferClose do
      emit .Decode
      match env.decodeIssues resp.Body with
      | .error err => Fatalf ("Error parsing issues: " ++ err ++ "\n")
      | .ok issues => emitAll (issues.flatMap renderIssue)

/-- A Go `map[string]int` as a list of entries with distinct keys. The counts
are bounded by the length of a slice, so they never wrap. -/
abbrev Languages : Type := List (String × Nat)

/-- Map read `m[k]`: zero when the key is absent. -/
def mapGet : Languages → String → Nat
  | [], _ => 0
  | (k, v) :: rest, key => if k = key then v else mapGet rest key

/-- Map write `m[k] = v`: replaces the entry of `k` or adds one. -/
def mapSet : Languages → String → Nat → Languages
  | [], key, v => [(key, v)]
  | (k, old) :: rest, key, v =>
    if k = key then (k, v) :: rest else (k, old) :: mapSet rest key v

/-- The statement `m[k]++`. -/
def mapIncr (m : Languages) (key : String) : Languages :=
  mapSet m key (mapGet m key + 1)

/-- The seven `Printf` calls of lines 276-282 for one repository. -/
def renderListed (repo : Repository) : List Event :=
  [ .Printf .BLUE repoNameFormat [.str repo.Name],
    .Printf .CYAN descriptionFormat [.str repo.Description],
    .Printf .GREEN "Language: %s\n" [.str repo.Language],
    .Printf .MAGENTA "Stars: %d\n" [.int repo.Stars],
    .Printf .YELLOW "Forks: %d\n" [.int repo.Forks],
    .Printf .GREY "Size: %d KB\n" [.int repo.Size],
    .Printf .CYAN "URL: %s\n\n" [.str repo.Url] ]

/-- The loop of lines 275-286: render each repository and count its language. -/
def countLanguages : List Repository → Languages → Prog Languages
  | [], languages => pure languages
  | repo :: rest, languages => do
    emitAll (renderListed repo)
    countLanguages rest (mapIncr languages repo.Language)

/-- The loop of lines 297-299. Go leaves the order of a `range` over a map
open; the model walks the entries in order of first insertion. -/
def renderLanguages (languages : Languages) : List Event :=
  languages.map fun (lang, count) => .Printf .CYAN "  %s: %d\n" [.str lang, .int count]

/-- Lines 260-303. -/
def fetchAllRepositories (env : Env) : Prog Unit := do
  let url := apiURL ++ "/user/repos"
  let r ← makeGitHubRequest env url
  match r with
  | .error err => Fatalf ("Error fetching repositories: " ++ err ++ "\n")
  | .ok resp =>
    deferClose do
      emit .Decode
      match env.decodeRepositories resp.Body with
      | .error err => Fatalf ("Error parsing repositories: " ++ err ++ "\n")
      | .ok repos =>
        let languages ← countLanguages repos []
        if repos.length > 0 then
          if repos.length = 1 then
            emit (.Println .GREEN "1 repository found!")
          else
            emit (.Printf .GREEN "%d repositories found!\n" [.int repos.length])
          emit (.Println .YELLOW "Languages:")
          emitAll (renderLanguages languages)
        else
          emit (.Println .RED "No repositories found!")

/-- The three `Printf` calls of lines 320-322 for one notification. -/
def renderNotification (n : Notification) : List Event :=
  [ .Printf .PURPLE "Notification Title: %s\n" [.str n.SubjectTitle],
    .Printf .CYAN urlFormat [.str n.SubjectURL],
    .Printf .GREY "Updated At: %s\n\n" [.str n.UpdatedAt] ]

/-- Lines 306-324. -/
def checkNotifications (env : Env) : Prog Unit := do
  let url := apiURL ++ "/notifications"
  let r ← makeGitHubRequest env url
  match r with
  | .error err => Fatalf ("Error checking notifications: " ++ err ++ "\n")
  | .ok resp =>
    deferClose do
      emit .Decode
      match env.decodeNotifications resp.Body with
      | .error err => Fatalf ("Error parsing notifications: " ++ err ++ "\n")
      | .ok notifications => emitAll (notifications.flatMap renderNotification)

/-! ## Command dispatcher (lines 67-130) -/

/-- The six flags defined at lines 69-74. -/
inductive FlagName
  | saveToken | searchRepo | showRepo | queryIssues | notify | allRepo
  deriving DecidableEq, Repr

/-- State of the flag set after `flag.Parse()`: the six values and the set
`actual` of the flags that were given on the command line. -/
structure Flags where
  saveTokenFlag : Bool
  searchRepoFlag : String
  showRepoFlag : String
  queryIssuesFlag : String
  notifyFlag : Bool
  allRepoFlag : Bool
  actual : List FlagName
  deriving DecidableEq, Repr

/-- The flag set before parsing: every flag has its default, none was given. -/
def Flags.defaults : Flags :=
  ⟨false, "", "", "", false, false, []⟩

/-- The call `flag.NFlag()`: the number of flags that have been set. -/
def Flags.NFlag (f : Flags) : Nat := f.actual.length

/-- One flag given on the command line, with the value it was given. -/
inductive Setting
  | saveToken (b : Bool)
  | searchRepo (s : String)
  | showRepo (s : String)
  | queryIssues (s : String)
  | notify (b : Bool)
  | allRepo (b : Bool)
  deriving DecidableEq, Repr

/-- Insertion into the set `actual`. -/
def markSet (name : FlagName) (actual : List FlagName) : List FlagName :=
  if name ∈ actual then actual else actual ++ [name]

/-- What `flag.Parse()` does for one flag given: store the value and enter the
flag into `actual`. -/
def Flags.set (f : Flags) : Setting → Flags
  | .saveToken b => { f with saveTokenFlag := b, actual := markSet .saveToken f.actual }
  | .searchRepo s => { f with searchRepoFlag := s, actual := markSet .searchRepo f.actual }
  | .showRepo s => { f with showRepoFlag := s, actual := markSet .showRepo f.actual }
  | .queryIssues s => { f with queryIssuesFlag := s, actual := markSet .queryIssues f.actual }
  | .notify b => { f with notifyFlag := b, actual := markSet .notify f.actual }
  | .allRepo b => { f with allRepoFlag := b, actual := markSet .allRepo f.actual }

/-- A successful `flag.Parse()` of a command line giving these flags in turn. -/
def Parse (given : List Setting) : Flags :=
  given.foldl Flags.set Flags.defaults

/-- A call made by `main` after parsing. -/
inductive Call
  | saveGitHubToken
  | fetchAllRepositories
  | searchRepository (repoName : String)
  | showRepository (repoName : String)
  | queryIssues (repoName : String)
  | checkNotifications
  | Usage
  deriving DecidableEq, Repr

/-- The six operations, that is every call but the usage text. -/
def Call.isOperation : Call → Bool
  | .Usage => false
  | _ => true

/-- Lines 92-130: the calls `main` makes, in order. The first five branches
end in `return`; the notify branch does not and falls through to the test of
`flag.NFlag()`. -/
def mainCalls (f : Flags) : List Call :=
  if f.saveTokenFlag then [.saveGitHubToken]
  else if f.allRepoFlag then [.fetchAllRepositories]
  else if f.searchRepoFlag ≠ "" then [.searchRepository f.searchRepoFlag]
  else if f.showRepoFlag ≠ "" then [.showRepository f.showRepoFlag]
  else if f.queryIssuesFlag ≠ "" then [.queryIssues f.queryIssuesFlag]
  else
    (if f.notifyFlag then [.checkNotifications] else [])
      ++ (if f.NFlag = 0 then [.Usage] else [])

/-- The function `flag.Usage` set at lines 78-87. -/
def Usage : Prog Unit :=
  emitAll
    [ .Println .YELLOW "Usage: githubcli [options]",
      .Println .YELLOW "Options:",
      .Println .CYAN "  -save-token\t\tSave GitHub Token",
      .Println .CYAN "  -all-repo\t\tFetch all repositories for the authenticated user",
      .Println .CYAN "  -search-repo <repo>\t\tSearch for a GitHub repository",
      .Println .CYAN "  -show-repo <repo>\t\tShow details of a GitHub repository",
      .Println .CYAN "  -query-issues\t\tQuery issues for a specific repository",
      .Println .CYAN "  -notify\t\tCheck notifications for the user" ]

/-- The function behind each call. -/
def runCall (env : Env) : Call → Prog Unit
  | .saveGitHubToken => saveGitHubToken env
  | .fetchAllRepositories => fetchAllRepositories env
  | .searchRepository repoName => searchRepository env repoName
  | .showRepository repoName => showRepository env repoName
  | .queryIssues repoName => queryIssues env repoName
  | .checkNotifications => checkNotifications env
  | .Usage => Usage

/-- Calls made one after the other; an early end skips the rest. -/
def runCalls (env : Env) : List Call → Prog Unit
  | [] => pure ()
  | c :: rest => do
    runCall env c
    runCalls env rest

/-- The function `main` after `flag.Parse()` (lines 92-130). -/
def main (env : Env) (f : Flags) : Prog Unit :=
  runCalls env (mainCalls f)

/-! ## Vocabulary of the statements -/

/-- The operations whose flag is selected, in the order of precedence save-token,
all-repo, search-repo, show-repo, query-issues, notify: a bool flag is selected
when true, a string flag when non-empty. -/
def selected (f : Flags) : List Call :=
  (if f.saveTokenFlag = true then [.saveGitHubToken] else [])
    ++ (if f.allRepoFlag = true then [.fetchAllRepositories] else [])
    ++ (if f.searchRepoFlag ≠ "" then [.searchRepository f.searchRepoFlag] else [])
    ++ (if f.showRepoFlag ≠ "" then [.showRepository f.showRepoFlag] else [])
    ++ (if f.queryIssuesFlag ≠ "" then [.queryIssues f.queryIssuesFlag] else [])
    ++ (if f.notifyFlag = true then [.checkNotifications] else [])

/-- The text `s` occurs in the text `msg`. -/
def occursIn (s msg : String) : Prop := s.data <:+: msg.data

/-- The message of line 216 for a response whose body was read in full. -/
def statusErrorMsg (resp : Response) : String :=
  "GitHub API returned an error: " ++ resp.Status ++ "\nDetails: " ++ resp.Body.data

/-- The event is the status error of line 216 for this response. -/
def isStatusError (resp : Response) (e : Event) : Bool :=
  e.fatalMsg == some (statusErrorMsg resp)

/-- Whether `os.ReadFile` succeeds on the token file. -/
def TokenFile.canRead : TokenFile → Bool
  | .absent => false
  | .present _ r _ => r

/-- Number of repositories of the list whose `Language` is `L`. -/
def languageCount (repos : List Repository) (L : String) : Nat :=
  repos.countP fun repo => repo.Language = L

/-- Shape of a Go map: no key occurs twice; and every count is positive. -/
def Languages.WF (m : Languages) : Prop :=
  (m.map Prod.fst).Nodup ∧ ∀ e ∈ m, 0 < e.2

/-! ## Concrete worlds and environments -/

/-- A repository written in the language `lang`. -/
def repoIn (lang : String) : Repository := ⟨"r", "", "octocat", lang, "main", "", 1, 0, 0, ""⟩

/-- A world without a token file. -/
def worldNoToken : World := ⟨.absent, true, "", []⟩

/-- A world whose token file holds `secret` and is readable. -/
def worldToken : World := ⟨.present "secret" true true, true, "", []⟩

/-- A world whose token file exists, is writable, and cannot be read. -/
def worldUnreadable : World := ⟨.present "secret" false true, true, "", []⟩

/-- The struct value `Repository{}` before decoding. -/
def zeroRepository : Repository := ⟨"", "", "", "", "", "", 0, 0, 0, ""⟩

/-- A decoded repository. -/
def sampleRepository : Repository :=
  ⟨"x", "demo", "octocat", "Go", "main", "MIT", 12, 5, 2, "https://github.com/octocat/x"⟩

/-- An environment in which every request is answered by `resp` and every
body decodes: the search answer has no `items`. The umask is 022. -/
def envAnswering (resp : Response) : Env :=
  ⟨.ok "ghp_abc", fun _ => none, fun _ _ => .ok resp, fun _ => .ok [("message", .str "x")],
    fun _ => (sampleRepository, none), fun _ => .ok [sampleRepository], fun _ => .ok [],
    fun _ => .ok [], 18⟩

/-- An environment in which every request is answered by `200 OK` and the
body decodes to the given list of repositories. The umask is 022. -/
def envListing (repos : List Repository) : Env :=
  ⟨.ok "ghp_abc", fun _ => none, fun _ _ => .ok ⟨"200 OK", 200, ⟨"[...]", none⟩⟩,
    fun _ => .ok [], fun _ => (zeroRepository, none), fun _ => .ok repos, fun _ => .ok [],
    fun _ => .ok [], 18⟩

/-- An environment in which every request is answered by `resp` and no body
decodes: the body is not JSON. -/
def envUndecodable (resp : Response) : Env :=
  ⟨.ok "ghp_abc", fun _ => none, fun _ _ => .ok resp, fun _ => .error "invalid character",
    fun _ => (zeroRepository, some "invalid character"), fun _ => .error "invalid character",
    fun _ => .error "invalid character", fun _ => .error "invalid character", 18⟩

/-- An environment whose umask is 0400: a file created with mode 0600 gets
mode 0200. -/
def envUmask0400 : Env :=
  ⟨.ok "ghp_abc", fun _ => none, fun _ _ => .error "no network", fun _ => .ok [],
    fun _ => (zeroRepository, none), fun _ => .ok [], fun _ => .ok [], fun _ => .ok [], 256⟩

/-- The answer `404 Not Found` of the server. -/
def resp404 : Response := ⟨"404 Not Found", 404, ⟨"Not Found", none⟩⟩

/-- An answer `201 Created`. -/
def resp201 : Response := ⟨"201 Created", 201, ⟨"", none⟩⟩

/-- An answer `200 OK` with a body. -/
def resp200 : Response := ⟨"200 OK", 200, ⟨"not json", none⟩⟩

/-! ## Basic facts about computations -/

theorem bind_eq {α β : Type} (p : Prog α) (f : α → Prog β) (w : World) :
    (p >>= f) w = match p w with
      | .ok a w1 => f a w1
      | .halt h w1 => .halt h w1 := rfl

theorem pure_eq {α : Type} (a : α) (w : World) : (pure a : Prog α) w = .ok a w := rfl

theorem loadGitHubToken_absent (w : World) (h : w.tokenFile = .absent) :
    loadGitHubToken w = .halt (.exit 1) { w with trace := w.trace ++
      [.ReadFile, .Print .YELLOW "GitHub Token not found. Please save your token using the ",
       .Print .GREY "-save-token", .Println .YELLOW " flag."] } := by
  simp [loadGitHubToken, bind_eq, ReadFile, h, IsNotExist, emit, Exit]

theorem makeGitHubRequest_absent (env : Env) (url : String) (w : World)
    (h : w.tokenFile = .absent) :
    makeGitHubRequest env url w = .halt (.exit 1) { w with trace := w.trace ++
      [.ReadFile, .Print .YELLOW "GitHub Token not found. Please save your token using the ",
       .Print .GREY "-save-token", .Println .YELLOW " flag."] } := by
  simp [makeGitHubRequest, bind_eq, loadGitHubToken_absent w h]

/-! ## Command dispatcher -/

theorem bind_pure_unit (p : Prog Unit) (w : World) :
    (p >>= fun _ => (pure () : Prog Unit)) w = p w := by
  rw [bind_eq]
  cases p w <;> rfl

theorem runCalls_single (env : Env) (c : Call) (w : World) :
    runCalls env [c] w = runCall env c w :=
  bind_pure_unit (runCall env c) w

theorem runCalls_then_Usage (env : Env) (c : Call) (w : World) :
    runCalls env [c, .Usage] w = (runCall env c >>= fun _ => Usage) w := by
  show (runCall env c >>= fun _ => runCalls env [.Usage]) w = _
  rw [bind_eq, bind_eq]
  cases runCall env c w with
  | ok a w1 => exact runCalls_single env .Usage w1
  | halt h w1 => rfl

/-- C1: for every parsed flag state `main` runs at most one operation, namely
the first selected flag in the order save-token, all-repo, search-repo, show-repo,
query-issues, notify: the run of `main` is the run of that one operation (after
notify, and when no operation is selected, followed by the usage text if
`flag.NFlag()` is 0); with `-all-repo` and `-search-repo` both given the run of
`main` is the run of `fetchAllRepositories`. -/
theorem main_runs_first_selected (env : Env) (f : Flags) (w : World) :
    (mainCalls f).filter Call.isOperation = (selected f).head?.toList
      ∧ ((mainCalls f).filter Call.isOperation).length ≤ 1
      ∧ main env f w
          = (match (selected f).head? with
              | some op =>
                (runCall env op >>= fun _ =>
                  if op = .checkNotifications ∧ f.NFlag = 0 then Usage else pure ()) w
              | none => if f.NFlag = 0 then Usage w else .ok () w)
      ∧ (mainCalls (Parse [.allRepo true, .searchRepo "cli"])).filter Call.isOperation
          = [.fetchAllRepositories]
      ∧ main env (Parse [.allRepo true, .searchRepo "cli"]) w = fetchAllRepositories env w := by
  refine ⟨?_, ?_, ?_, by decide, ?_⟩
  · unfold mainCalls selected
    by_cases h1 : f.saveTokenFlag = true <;> by_cases h2 : f.allRepoFlag = true <;>
      by_cases h3 : f.searchRepoFlag = "" <;> by_cases h4 : f.showRepoFlag = "" <;>
      by_cases h5 : f.queryIssuesFlag = "" <;> by_cases h6 : f.notifyFlag = true <;>
      by_cases h7 : f.NFlag = 0 <;>
      simp [h1, h2, h3, h4, h5, h6, h7, Call.isOperation]
  · unfold mainCalls
    by_cases h1 : f.saveTokenFlag = true <;> by_cases h2 : f.allRepoFlag = true <;>
      by_cases h3 : f.searchRepoFlag = "" <;> by_cases h4 : f.showRepoFlag = "" <;>
      by_cases h5 : f.queryIssuesFlag = "" <;> by_cases h6 : f.notifyFlag = true <;>
      by_cases h7 : f.NFlag = 0 <;>
      simp [h1, h2, h3, h4, h5, h6, h7, Call.isOperation]
  · unfold main mainCalls selected
    by_cases h1 : f.saveTokenFlag = true <;> by_cases h2 : f.allRepoFlag = true <;>
      by_cases h3 : f.searchRepoFlag = "" <;> by_cases h4 : f.showRepoFlag = "" <;>
      by_cases h5 : f.queryIssuesFlag = "" <;> by_cases h6 : f.notifyFlag = true <;>
      by_cases h7 : f.NFlag = 0 <;>
      simp [h1, h2, h3, h4, h5, h6, h7, runCalls_single, runCalls_then_Usage,
        bind_pure_unit, runCall, runCalls, pure_eq]
  · exact runCalls_single env .fetchAllRepositories w

/-- C2, as stated, fails: the command line `-notify=false` selects no operation,
yet `main` makes no call at all and prints nothing, because `flag.NFlag()` is 1. -/
theorem usage_not_printed_for_unselecting_flag :
    selected (Parse [.notify false]) = []
      ∧ mainCalls (Parse [.notify false]) = []
      ∧ (main (envAnswering resp200) (Parse [.notify false]) worldToken).world.trace = [] := by
  refine ⟨by decide, by decide, rfl⟩

/-- C2, amended: when no operation is selected `main` runs no operation; it
prints the usage text when no flag was given on the command line, and makes no
call at all when some flag was given. -/
theorem usage_iff_no_flag_given (env : Env) (f : Flags) (w : World)
    (hnone : selected f = []) :
    (mainCalls f).filter Call.isOperation = []
      ∧ (f.NFlag = 0 → mainCalls f = [.Usage] ∧ main env f w = Usage w)
      ∧ (f.NFlag ≠ 0 → mainCalls f = [] ∧ main env f w = .ok () w) := by
  have h1 : f.saveTokenFlag = false := by
    by_contra h; simp [selected, h] at hnone
  have h2 : f.allRepoFlag = false := by
    by_contra h; simp [selected, h] at hnone
  have h3 : f.searchRepoFlag = "" := by
    by_contra h; simp [selected, h] at hnone
  have h4 : f.showRepoFlag = "" := by
    by_contra h; simp [selected, h] at hnone
  have h5 : f.queryIssuesFlag = "" := by
    by_contra h; simp [selected, h] at hnone
  have h6 : f.notifyFlag = false := by
    by_contra h; simp [selected, h] at hnone
  refine ⟨?_, ?_, ?_⟩
  · by_cases h7 : f.NFlag = 0 <;>
      simp [mainCalls, h1, h2, h3, h4, h5, h6, h7, Call.isOperation]
  · intro h7
    have hc : mainCalls f = [.Usage] := by
      simp [mainCalls, h1, h2, h3, h4, h5, h6, h7]
    refine ⟨hc, ?_⟩
    simp only [main, hc, runCalls, runCall, bind_eq]
    rfl
  · intro h7
    have hc : mainCalls f = [] := by
      simp [mainCalls, h1, h2, h3, h4, h5, h6, h7]
    refine ⟨hc, ?_⟩
    simp only [main, hc, runCalls]
    rfl

/-- Witness of `usage_iff_no_flag_given`: no flag at all prints the usage text. -/
theorem usage_iff_no_flag_given_witness :
    selected (Parse []) = []
      ∧ (mainCalls (Parse [])).filter Call.isOperation = []
      ∧ ((Parse []).NFlag = 0 → mainCalls (Parse []) = [.Usage]
          ∧ main (envAnswering resp200) (Parse []) worldToken = Usage worldToken)
      ∧ ((Parse []).NFlag ≠ 0 → mainCalls (Parse []) = []
          ∧ main (envAnswering resp200) (Parse []) worldToken = .ok () worldToken) :=
  ⟨by decide, usage_iff_no_flag_given (envAnswering resp200) (Parse []) worldToken (by decide)⟩

/-! ## Missing and unreadable token file -/

/-- C4: every operation other than save-token, started without a token file,
ends the process with exit code 1, and none of the interactions it makes is an
HTTP request. -/
theorem missing_token_exits_without_request (env : Env) (c : Call) (w : World)
    (hop : c.isOperation = true) (hsave : c ≠ .saveGitHubToken)
    (h : w.tokenFile = .absent) :
    (runCall env c w).halted = some (.exit 1)
      ∧ ∃ es, (runCall env c w).world.trace = w.trace ++ es
          ∧ ∀ e ∈ es, e.isRequest = false := by
  have key : ∀ (p : Prog Unit) (url : String) (k : Except String Response → Prog Unit),
      p = (makeGitHubRequest env url >>= k) →
      (p w).halted = some (.exit 1)
        ∧ ∃ es, (p w).world.trace = w.trace ++ es ∧ ∀ e ∈ es, e.isRequest = false := by
    intro p url k hp
    subst hp
    rw [bind_eq, makeGitHubRequest_absent env url w h]
    refine ⟨rfl, _, rfl, ?_⟩
    intro e he
    simp at he
    rcases he with he | he | he | he <;> subst he <;> rfl
  cases c with
  | saveGitHubToken => exact absurd rfl hsave
  | fetchAllRepositories => exact key _ _ _ rfl
  | searchRepository repoName => exact key _ _ _ rfl
  | showRepository repoName => exact key _ _ _ rfl
  | queryIssues repoName => exact key _ _ _ rfl
  | checkNotifications => exact key _ _ _ rfl
  | Usage => simp [Call.isOperation] at hop

/-- Witness of `missing_token_exits_without_request`: `-notify` without a
token file. -/
theorem missing_token_exits_without_request_witness :
    worldNoToken.tokenFile = .absent
      ∧ (runCall (envAnswering resp200) .checkNotifications worldNoToken).halted
          = some (.exit 1)
      ∧ ∃ es, (runCall (envAnswering resp200) .checkNotifications worldNoToken).world.trace
            = worldNoToken.trace ++ es
          ∧ ∀ e ∈ es, e.isRequest = false :=
  ⟨rfl, missing_token_exits_without_request (envAnswering resp200) .checkNotifications
    worldNoToken rfl (by decide) rfl⟩

/-- C8, evaluated where it fails: the token file exists and cannot be read.
`loadGitHubToken` returns the empty string instead of ending the process, and
`checkNotifications` sends a request whose header is `token ` with no token. -/
theorem unreadable_token_file_still_requests :
    worldUnreadable.tokenFile.canRead = false
      ∧ (loadGitHubToken worldUnreadable).halted = none
      ∧ (loadGitHubToken worldUnreadable).value = some ""
      ∧ (checkNotifications (envAnswering resp200) worldUnreadable).halted = none
      ∧ ((checkNotifications (envAnswering resp200) worldUnreadable).world.trace.filter
          Event.isRequest).length = 1
      ∧ (makeGitHubRequest (envAnswering resp200) "https://api.github.com/notifications"
          worldUnreadable)
          = .ok (.ok resp200) ⟨.present "secret" false true, true, "",
              [.ReadFile, .httpGet "https://api.github.com/notifications" "token "]⟩ := by
  refine ⟨rfl, rfl, rfl, rfl, rfl, rfl⟩

/-! ## Show-repo: status test and decoding -/

theorem showRepository_not_200 (env : Env) (repoName : String) (w w1 : World)
    (resp : Response)
    (hresp : makeGitHubRequest env (apiURL ++ "/repos/" ++ repoName) w = .ok (.ok resp) w1)
    (hstatus : resp.StatusCode ≠ 200) :
    showRepository env repoName w = .halt (.exit 1)
      { w1 with trace := w1.trace ++ [.ReadAll, .Fatalf (statusErrorMsg resp)] } := by
  simp [showRepository, bind_eq, hresp, deferClose, hstatus, ReadAll, emit, Fatalf,
    statusErrorMsg, pure_eq]

theorem showRepository_200 (env : Env) (repoName : String) (w w1 : World)
    (resp : Response)
    (hresp : makeGitHubRequest env (apiURL ++ "/repos/" ++ repoName) w = .ok (.ok resp) w1)
    (hstatus : resp.StatusCode = 200) :
    showRepository env repoName w = .ok ()
      { w1 with trace := w1.trace ++ (.Decode ::
          ((if (env.decodeRepository resp.Body).2.isSome then
              [.Printf .BLUE repoNameFormat [.str (env.decodeRepository resp.Body).1.Name]]
            else [])
            ++ renderRepository (env.decodeRepository resp.Body).1 ++ [.Close])) } := by
  cases hd : (env.decodeRepository resp.Body).2 <;>
    simp [showRepository, bind_eq, hresp, deferClose, hstatus, emit, emitAll, pure_eq, hd]

theorem occursIn_middle (a s b : String) : occursIn s (a ++ s ++ b) := by
  unfold occursIn
  exact ⟨a.data, b.data, by simp [String.data_append]⟩

theorem occursIn_append (s msg c : String) (h : occursIn s msg) : occursIn s (msg ++ c) := by
  unfold occursIn at *
  obtain ⟨x, y, hxy⟩ := h
  exact ⟨x, y ++ c.data, by simp [String.data_append, ← hxy]⟩

theorem occursIn_end (a s : String) : occursIn s (a ++ s) := by
  unfold occursIn
  exact ⟨a.data, [], by simp [String.data_append]⟩

/-- C5: whenever the request of `showRepository` is answered with a status code
outside 200..299, the run ends in `log.Fatalf` with a message in which the status
line and the body text occur; after the answer the only interactions are reading
the body and that message, so nothing is decoded and no field is rendered. -/
theorem showRepository_non2xx_is_status_error (env : Env) (repoName : String)
    (w w1 : World) (resp : Response)
    (hresp : makeGitHubRequest env (apiURL ++ "/repos/" ++ repoName) w = .ok (.ok resp) w1)
    (hstatus : resp.StatusCode < 200 ∨ 299 < resp.StatusCode) :
    ∃ msg, showRepository env repoName w = .halt (.exit 1)
        { w1 with trace := w1.trace ++ [.ReadAll, .Fatalf msg] }
      ∧ occursIn resp.Status msg
      ∧ occursIn resp.Body.data msg
      ∧ ∀ e ∈ [Event.ReadAll, Event.Fatalf msg], e.isDecode = false ∧ e.isRender = false := by
  have hne : resp.StatusCode ≠ 200 := by omega
  refine ⟨statusErrorMsg resp, showRepository_not_200 env repoName w w1 resp hresp hne,
    ?_, ?_, ?_⟩
  · exact occursIn_append _ _ _ (occursIn_middle _ _ _)
  · exact occursIn_end _ _
  · intro e he
    simp at he
    rcases he with he | he <;> subst he <;> exact ⟨rfl, rfl⟩

/-- Witness of `showRepository_non2xx_is_status_error`: the answer `404 Not Found`. -/
theorem showRepository_non2xx_is_status_error_witness :
    (resp404.StatusCode < 200 ∨ 299 < resp404.StatusCode)
      ∧ ∃ msg, showRepository (envAnswering resp404) "octocat/x" worldToken = .halt (.exit 1)
          ⟨.present "secret" true true, true, "secret",
            [.ReadFile, .httpGet "https://api.github.com/repos/octocat/x" "token secret",
              .ReadAll, .Fatalf msg]⟩
        ∧ occursIn resp404.Status msg
        ∧ occursIn resp404.Body.data msg
        ∧ ∀ e ∈ [Event.ReadAll, Event.Fatalf msg], e.isDecode = false ∧ e.isRender = false :=
  ⟨by decide, showRepository_non2xx_is_status_error (envAnswering resp404) "octocat/x"
    worldToken _ resp404 rfl (by decide)⟩

/-- C10, as stated, fails: the answer `201 Created` has a status code in
200..299, yet `showRepository` raises the status error and decodes nothing. -/
theorem showRepository_201_is_status_error :
    (200 ≤ resp201.StatusCode ∧ resp201.StatusCode ≤ 299)
      ∧ showRepository (envAnswering resp201) "octocat/x" worldToken = .halt (.exit 1)
          ⟨.present "secret" true true, true, "secret",
            [.ReadFile, .httpGet "https://api.github.com/repos/octocat/x" "token secret",
              .ReadAll, .Fatalf "GitHub API returned an error: 201 Created\nDetails: "]⟩ :=
  ⟨by decide, rfl⟩

/-- C10, amended: after the answer to its request, `showRepository` raises the
status error if and only if the status code is not 200; at status code 200 its
next step is to decode the body, and when decoding succeeds it renders the ten
fields of the repository and returns. -/
theorem showRepository_status_error_iff_not_200 (env : Env) (repoName : String)
    (w w1 : World) (resp : Response)
    (hresp : makeGitHubRequest env (apiURL ++ "/repos/" ++ repoName) w = .ok (.ok resp) w1) :
    ∃ es, (showRepository env repoName w).world.trace = w1.trace ++ es
      ∧ (es.any (isStatusError resp) = true ↔ resp.StatusCode ≠ 200)
      ∧ (resp.StatusCode = 200 → es.head? = some .Decode
          ∧ ((env.decodeRepository resp.Body).2 = none →
              showRepository env repoName w = .ok ()
                { w1 with trace := w1.trace ++ (.Decode ::
                    (renderRepository (env.decodeRepository resp.Body).1 ++ [.Close])) })) := by
  by_cases hstatus : resp.StatusCode = 200
  · have hrun := showRepository_200 env repoName w w1 resp hresp hstatus
    refine ⟨_, by rw [hrun]; rfl, ?_, ?_⟩
    · cases hd : (env.decodeRepository resp.Body).2 <;>
        simp [hstatus, isStatusError, Event.fatalMsg, renderRepository]
    · intro _
      refine ⟨rfl, ?_⟩
      intro hd
      rw [hrun]
      simp [hd]
  · have hrun := showRepository_not_200 env repoName w w1 resp hresp hstatus
    refine ⟨_, by rw [hrun]; rfl, ?_, ?_⟩
    · simp [hstatus, isStatusError, Event.fatalMsg]
    · intro h200
      exact absurd h200 hstatus

/-- Witness of `showRepository_status_error_iff_not_200`: the answer `200 OK`. -/
theorem showRepository_status_error_iff_not_200_witness :
    makeGitHubRequest (envAnswering resp200) (apiURL ++ "/repos/" ++ "octocat/x") worldToken
        = .ok (.ok resp200) ⟨.present "secret" true true, true, "secret",
            [.ReadFile, .httpGet "https://api.github.com/repos/octocat/x" "token secret"]⟩
      ∧ ∃ es, (showRepository (envAnswering resp200) "octocat/x" worldToken).world.trace
          = [.ReadFile, .httpGet "https://api.github.com/repos/octocat/x" "token secret"] ++ es
        ∧ (es.any (isStatusError resp200) = true ↔ resp200.StatusCode ≠ 200) :=
  ⟨rfl, by
    obtain ⟨es, h1, h2, _⟩ := showRepository_status_error_iff_not_200 (envAnswering resp200)
      "octocat/x" worldToken _ resp200 rfl
    exact ⟨es, h1, h2⟩⟩

theorem decode_failure_is_fatal_elsewhere (env : Env) (w w1 : World) (resp : Response)
    (repoName err : String) :
    (makeGitHubRequest env (apiURL ++ "/user/repos") w = .ok (.ok resp) w1 →
        env.decodeRepositories resp.Body = .error err →
        fetchAllRepositories env w = .halt (.exit 1)
          { w1 with trace := w1.trace
              ++ [.Decode, .Fatalf ("Error parsing repositories: " ++ err ++ "\n")] })
      ∧ (makeGitHubRequest env (apiURL ++ "/search/repositories?q=" ++ repoName) w
            = .ok (.ok resp) w1 →
          env.decodeMap resp.Body = .error err →
          searchRepository env repoName w = .halt (.exit 1)
            { w1 with trace := w1.trace
                ++ [.Decode, .Fatalf ("Error parsing response: " ++ err ++ "\n")] })
      ∧ (makeGitHubRequest env (apiURL ++ "/repos/" ++ repoName ++ "/issues") w
            = .ok (.ok resp) w1 →
          env.decodeIssues resp.Body = .error err →
          queryIssues env repoName w = .halt (.exit 1)
            { w1 with trace := w1.trace
                ++ [.Decode, .Fatalf ("Error parsing issues: " ++ err ++ "\n")] })
      ∧ (makeGitHubRequest env (apiURL ++ "/notifications") w = .ok (.ok resp) w1 →
          env.decodeNotifications resp.Body = .error err →
          checkNotifications env w = .halt (.exit 1)
            { w1 with trace := w1.trace
                ++ [.Decode, .Fatalf ("Error parsing notifications: " ++ err ++ "\n")] }) := by
  refine ⟨?_, ?_, ?_, ?_⟩
  · intro hresp hdec
    simp [fetchAllRepositories, bind_eq, hresp, deferClose, emit, hdec, Fatalf]
  · intro hresp hdec
    simp [searchRepository, bind_eq, hresp, deferClose, emit, hdec, Fatalf]
  · intro hresp hdec
    simp [queryIssues, bind_eq, hresp, deferClose, emit, hdec, Fatalf]
  · intro hresp hdec
    simp [checkNotifications, bind_eq, hresp, deferClose, emit, hdec, Fatalf]

/-- C6, evaluated where it fails: the answer is `200 OK` and its body does not
decode. `showRepository` does not end the process: it prints the name format
once for the error, renders all ten fields of the zero repository and returns.
The four other operations end the process on the same body. -/
theorem showRepository_renders_after_decode_failure :
    ((envUndecodable resp200).decodeRepository resp200.Body).2 = some "invalid character"
      ∧ showRepository (envUndecodable resp200) "octocat/x" worldToken = .ok ()
          ⟨.present "secret" true true, true, "secret",
            [.ReadFile, .httpGet "https://api.github.com/repos/octocat/x" "token secret",
              .Decode, .Printf .BLUE "Repository Name: %s\n" [.str ""]]
              ++ renderRepository zeroRepository ++ [.Close]⟩
      ∧ (fetchAllRepositories (envUndecodable resp200) worldToken).halted = some (.exit 1)
      ∧ (searchRepository (envUndecodable resp200) "x" worldToken).halted = some (.exit 1)
      ∧ (queryIssues (envUndecodable resp200) "octocat/x" worldToken).halted = some (.exit 1)
      ∧ (checkNotifications (envUndecodable resp200) worldToken).halted = some (.exit 1) :=
  ⟨rfl, rfl, rfl, rfl, rfl, rfl⟩

/-! ## Search-repo: the type assertion on `items` -/

theorem index_absent (m : List (String × JSON)) (key : String)
    (h : ∀ v, (key, v) ∉ m) : index m key = .null := by
  induction m with
  | nil => rfl
  | cons e rest ih =>
    obtain ⟨k, v⟩ := e
    have hk : k ≠ key := by
      intro hk
      exact h v (by simp [hk])
    simp only [index, hk, if_false]
    exact ih fun v hv => h v (List.mem_cons_of_mem _ hv)

/-- C9: whenever the answer to the search request decodes to an object in
which `items` is absent or is not an array, `searchRepository` ends in the panic
of the failed type assertion; after the answer the only interactions are the
decoding and the deferred close, so no repository is rendered. -/
theorem searchRepository_items_not_array_panics (env : Env) (repoName : String)
    (w w1 : World) (resp : Response) (result : List (String × JSON))
    (hresp : makeGitHubRequest env (apiURL ++ "/search/repositories?q=" ++ repoName) w
      = .ok (.ok resp) w1)
    (hdec : env.decodeMap resp.Body = .ok result)
    (hitems : (∀ v, ("items", v) ∉ result) ∨ ∀ xs, index result "items" ≠ .array xs) :
    searchRepository env repoName w
        = .halt
            (.panicked ("interface conversion: interface \x7b\x7d is "
              ++ (index result "items").typeName ++ ", not []interface \x7b\x7d"))
            { w1 with trace := w1.trace ++ [.Decode, .Close] }
      ∧ ∀ e ∈ [Event.Decode, Event.Close], e.isRender = false := by
  have hna : ∀ xs, index result "items" ≠ .array xs := by
    rcases hitems with habs | hna
    · intro xs hxs
      rw [index_absent result "items" habs] at hxs
      cases hxs
    · exact hna
  refine ⟨?_, ?_⟩
  · cases hv : index result "items" with
    | array xs => exact absurd hv (hna xs)
    | null => simp [searchRepository, bind_eq, hresp, deferClose, emit, hdec, hv, assertArray,
        goPanic]
    | bool b => simp [searchRepository, bind_eq, hresp, deferClose, emit, hdec, hv,
        assertArray, goPanic]
    | float64 n => simp [searchRepository, bind_eq, hresp, deferClose, emit, hdec, hv,
        assertArray, goPanic]
    | str t => simp [searchRepository, bind_eq, hresp, deferClose, emit, hdec, hv,
        assertArray, goPanic]
    | object kvs => simp [searchRepository, bind_eq, hresp, deferClose, emit, hdec, hv,
        assertArray, goPanic]
  · intro e he
    simp at he
    rcases he with he | he <;> subst he <;> rfl

/-- Witness of `searchRepository_items_not_array_panics`: an answer without
`items`, such as the error object of the server. -/
theorem searchRepository_items_not_array_panics_witness :
    ((∀ v, ("items", v) ∉ [("message", JSON.str "x")])
        ∨ ∀ xs, index [("message", JSON.str "x")] "items" ≠ .array xs)
      ∧ searchRepository (envAnswering resp200) "cli" worldToken
          = .halt
              (.panicked "interface conversion: interface \x7b\x7d is nil, not []interface \x7b\x7d")
              ⟨.present "secret" true true, true, "secret",
                [.ReadFile,
                  .httpGet "https://api.github.com/search/repositories?q=cli" "token secret",
                  .Decode, .Close]⟩ :=
  ⟨Or.inl (by simp),
    (searchRepository_items_not_array_panics (envAnswering resp200) "cli" worldToken _ resp200
      [("message", .str "x")] rfl rfl (Or.inl (by simp))).1⟩

/-! ## Credential store: save, then load -/

theorem saveGitHubToken_eq (env : Env) (w : World) (t : String) (hscan : env.Scanln = .ok t) :
    saveGitHubToken env w
      = (WriteFile env t >>= fun err =>
          match err with
          | some e => Fatalf ("Failed to save token: " ++ e.Error ++ "\n")
          | none => emit (.Println .GREEN "Token saved successfully!"))
        { w with trace := w.trace ++
            [.Println .YELLOW "Enter your GitHub Personal Access Token: ", .Scanln] } := by
  simp [saveGitHubToken, bind_eq, emit, hscan]

theorem created_token_file_follows_umask :
    (saveGitHubToken envUmask0400 worldNoToken).halted = none
      ∧ (saveGitHubToken envUmask0400 worldNoToken).world.tokenFile
          = .present "ghp_abc" false true
      ∧ (loadGitHubToken (saveGitHubToken envUmask0400 worldNoToken).world).value = some "" :=
  ⟨rfl, rfl, rfl⟩

/-- C7, as stated, fails: the token file exists with write permission and
without read permission. `saveGitHubToken` reads `ghp_abc` and writes it
successfully; the following `loadGitHubToken` returns the empty string. -/
theorem saved_token_not_loaded_from_unreadable_file :
    (envAnswering resp200).Scanln = .ok "ghp_abc"
      ∧ saveGitHubToken (envAnswering resp200) worldUnreadable = .ok ()
          ⟨.present "ghp_abc" false true, true, "",
            [.Println .YELLOW "Enter your GitHub Personal Access Token: ", .Scanln,
              .WriteFile "ghp_abc", .Println .GREEN "Token saved successfully!"]⟩
      ∧ (loadGitHubToken (saveGitHubToken (envAnswering resp200) worldUnreadable).world).value
          = some ""
      ∧ "" ≠ "ghp_abc" :=
  ⟨rfl, rfl, rfl, by decide⟩

/-- C7, amended: when `saveGitHubToken` reads the token `t` and writes it
successfully, the token file holds exactly `t`, and a following `loadGitHubToken`
returns exactly `t` provided the file can be read. -/
theorem saved_token_is_loaded_when_readable (env : Env) (w : World) (t : String)
    (hscan : env.Scanln = .ok t) (hsave : (saveGitHubToken env w).halted = none) :
    (∃ r wr, (saveGitHubToken env w).world.tokenFile = .present t r wr)
      ∧ ((saveGitHubToken env w).world.tokenFile.canRead = true →
          (loadGitHubToken (saveGitHubToken env w).world).value = some t
            ∧ (loadGitHubToken (saveGitHubToken env w).world).halted = none) := by
  rw [saveGitHubToken_eq env w t hscan] at hsave ⊢
  cases hf : w.tokenFile with
  | absent =>
    cases hd : w.dirWritable with
    | false => simp [bind_eq, WriteFile, hf, hd, Fatalf, Result.halted] at hsave
    | true =>
      cases hr : createdReadable env.umask <;>
        simp [bind_eq, WriteFile, hf, hd, hr, emit, Result.world, TokenFile.canRead,
          loadGitHubToken, ReadFile, pure_eq, Result.value, Result.halted]
  | present c r wr =>
    cases hwr : wr with
    | false =>
      subst hwr
      simp [bind_eq, WriteFile, hf, Fatalf, Result.halted] at hsave
    | true =>
      subst hwr
      cases r <;>
        simp [bind_eq, WriteFile, hf, emit, Result.world, TokenFile.canRead,
          loadGitHubToken, ReadFile, pure_eq, Result.value, Result.halted]

/-- Witness of `saved_token_is_loaded_when_readable`: the first save, into a
directory without a token file, under the umask 022. -/
theorem saved_token_is_loaded_when_readable_witness :
    (envAnswering resp200).Scanln = .ok "ghp_abc"
      ∧ (saveGitHubToken (envAnswering resp200) worldNoToken).halted = none
      ∧ (saveGitHubToken (envAnswering resp200) worldNoToken).world.tokenFile.canRead = true
      ∧ (loadGitHubToken (saveGitHubToken (envAnswering resp200) worldNoToken).world).value
          = some "ghp_abc" :=
  ⟨rfl, rfl, rfl,
    ((saved_token_is_loaded_when_readable (envAnswering resp200) worldNoToken "ghp_abc"
      rfl rfl).2 rfl).1⟩

/-! ## Fetch-all-repos: the language histogram -/

theorem mapGet_mapSet (m : Languages) (k : String) (v : Nat) (key : String) :
    mapGet (mapSet m k v) key = if k = key then v else mapGet m key := by
  induction m with
  | nil => simp [mapSet, mapGet]
  | cons e rest ih =>
    obtain ⟨a, old⟩ := e
    by_cases hak : a = k
    · subst hak
      by_cases hkey : a = key <;> simp [mapSet, mapGet, hkey]
    · by_cases hkey : a = key
      · subst hkey
        have hka : ¬ k = a := fun h => hak h.symm
        simp [mapSet, mapGet, hak, hka]
      · simp [mapSet, mapGet, hak, hkey, ih]

theorem mem_mapSet (m : Languages) (k : String) (v : Nat) (e : String × Nat)
    (h : e ∈ mapSet m k v) : e = (k, v) ∨ e ∈ m := by
  induction m with
  | nil => simpa [mapSet] using h
  | cons x rest ih =>
    obtain ⟨a, old⟩ := x
    by_cases hak : a = k
    · subst hak
      simp only [mapSet, if_true, List.mem_cons] at h
      rcases h with h | h
      · exact Or.inl h
      · exact Or.inr (List.mem_cons_of_mem _ h)
    · simp only [mapSet, hak, if_false, List.mem_cons] at h
      rcases h with h | h
      · exact Or.inr (by simp [h])
      · rcases ih h with h2 | h2
        · exact Or.inl h2
        · exact Or.inr (List.mem_cons_of_mem _ h2)

theorem keys_mapSet (m : Languages) (k : String) (v : Nat) :
    (mapSet m k v).map Prod.fst
      = if k ∈ m.map Prod.fst then m.map Prod.fst else m.map Prod.fst ++ [k] := by
  induction m with
  | nil => simp [mapSet]
  | cons x rest ih =>
    obtain ⟨a, old⟩ := x
    by_cases hak : a = k
    · subst hak
      simp [mapSet]
    · have hka : ¬ k = a := fun h => hak h.symm
      by_cases hmem : k ∈ rest.map Prod.fst
      · have hmem2 : ∃ n, (k, n) ∈ rest := by simpa using hmem
        simp [mapSet, hak, hka, ih, hmem, hmem2]
      · have hmem2 : ¬ ∃ n, (k, n) ∈ rest := by simpa using hmem
        simp [mapSet, hak, hka, ih, hmem, hmem2]

theorem WF_mapIncr (m : Languages) (k : String) (h : m.WF) : (mapIncr m k).WF := by
  obtain ⟨hnd, hpos⟩ := h
  refine ⟨?_, ?_⟩
  · unfold mapIncr
    rw [keys_mapSet]
    by_cases hmem : k ∈ m.map Prod.fst
    · simpa [hmem] using hnd
    · simp only [hmem, if_false]
      exact List.Nodup.append hnd (List.nodup_singleton k) (by simpa using hmem)
  · intro e he
    rcases mem_mapSet m k _ e he with h1 | h1
    · subst h1
      exact Nat.succ_pos _
    · exact hpos e h1

theorem mapGet_of_mem (m : Languages) (k : String) (n : Nat)
    (hnd : (m.map Prod.fst).Nodup) (h : (k, n) ∈ m) : mapGet m k = n := by
  induction m with
  | nil => cases h
  | cons x rest ih =>
    obtain ⟨a, old⟩ := x
    simp only [List.map_cons, List.nodup_cons] at hnd
    simp only [List.mem_cons, Prod.mk.injEq] at h
    rcases h with ⟨h1, h2⟩ | h
    · subst h1
      simp [mapGet, h2]
    · have hak : a ≠ k := by
        intro hak
        subst hak
        exact hnd.1 (List.mem_map_of_mem Prod.fst h)
      simp only [mapGet, hak, if_false]
      exact ih hnd.2 h

theorem mem_of_mapGet_pos (m : Languages) (k : String) (h : 0 < mapGet m k) :
    (k, mapGet m k) ∈ m := by
  induction m with
  | nil => simp [mapGet] at h
  | cons x rest ih =>
    obtain ⟨a, old⟩ := x
    by_cases hak : a = k
    · subst hak
      simp [mapGet]
    · simp only [mapGet, hak, if_false] at h ⊢
      exact List.mem_cons_of_mem _ (ih h)

theorem mem_iff_mapGet (m : Languages) (h : m.WF) (k : String) (n : Nat) :
    (k, n) ∈ m ↔ n = mapGet m k ∧ 0 < n := by
  constructor
  · intro hmem
    exact ⟨(mapGet_of_mem m k n h.1 hmem).symm, h.2 _ hmem⟩
  · rintro ⟨h1, h2⟩
    subst h1
    exact mem_of_mapGet_pos m k h2

theorem countLanguages_spec (repos : List Repository) :
    ∀ (m : Languages) (w : World), m.WF →
      ∃ m1 w1, countLanguages repos m w = .ok m1 w1
        ∧ m1.WF
        ∧ (∀ L, mapGet m1 L = mapGet m L + languageCount repos L)
        ∧ w1 = { w with trace := w.trace ++ repos.flatMap renderListed } := by
  induction repos with
  | nil =>
    intro m w hm
    exact ⟨m, w, rfl, hm, by simp [languageCount], by simp⟩
  | cons repo rest ih =>
    intro m w hm
    obtain ⟨m1, w1, hrun, hwf, hget, hw1⟩ :=
      ih (mapIncr m repo.Language) { w with trace := w.trace ++ renderListed repo }
        (WF_mapIncr m _ hm)
    refine ⟨m1, w1, ?_, hwf, ?_, ?_⟩
    · simp only [countLanguages, bind_eq, emitAll]
      exact hrun
    · intro L
      rw [hget L]
      unfold mapIncr
      rw [mapGet_mapSet]
      by_cases hL : repo.Language = L
      · simp [languageCount, List.countP_cons, hL]
        omega
      · simp [languageCount, List.countP_cons, hL]
    · rw [hw1]
      simp [List.flatMap_cons, List.append_assoc]

theorem renderLanguages_eq (m : Languages) :
    renderLanguages m
      = m.map fun e => Event.Printf .CYAN "  %s: %d\n" [.str e.1, .int e.2] := by
  unfold renderLanguages
  apply List.map_congr_left
  rintro ⟨lang, count⟩ _
  rfl

theorem fetchAllRepositories_builds_histogram (env : Env) (w w1 : World) (resp : Response)
    (repos : List Repository)
    (hresp : makeGitHubRequest env (apiURL ++ "/user/repos") w = .ok (.ok resp) w1)
    (hdec : env.decodeRepositories resp.Body = .ok repos) :
    ∃ (m : Languages) (w2 : World),
      countLanguages repos [] { w1 with trace := w1.trace ++ [.Decode] } = .ok m w2
      ∧ m.WF
      ∧ (∀ L, mapGet m L = languageCount repos L)
      ∧ (repos ≠ [] → fetchAllRepositories env w = .ok ()
          { w1 with trace := w1.trace ++ [.Decode] ++ repos.flatMap renderListed
              ++ [if repos.length = 1 then .Println .GREEN "1 repository found!"
                  else .Printf .GREEN "%d repositories found!\n" [.int repos.length],
                .Println .YELLOW "Languages:"]
              ++ (m.map fun e => Event.Printf .CYAN "  %s: %d\n" [.str e.1, .int e.2])
              ++ [.Close] })
      ∧ (repos = [] → fetchAllRepositories env w = .ok ()
          { w1 with trace := w1.trace
              ++ [.Decode, .Println .RED "No repositories found!", .Close] }) := by
  have hnil : Languages.WF [] := ⟨by simp, by simp⟩
  obtain ⟨m, w2, hrun, hwf, hget, hw2⟩ :=
    countLanguages_spec repos [] { w1 with trace := w1.trace ++ [.Decode] } hnil
  have hget1 : ∀ L, mapGet m L = languageCount repos L := by
    intro L
    simpa [mapGet] using hget L
  refine ⟨m, w2, hrun, hwf, hget1, ?_, ?_⟩
  · intro hne
    have hlen : 0 < repos.length := List.length_pos.mpr hne
    rw [← renderLanguages_eq]
    subst hw2
    by_cases h1 : repos.length = 1
    · simp [fetchAllRepositories, bind_eq, hresp, deferClose, emit, emitAll, hdec, hrun,
        h1, List.append_assoc]
    · simp [fetchAllRepositories, bind_eq, hresp, deferClose, emit, emitAll, hdec, hrun,
        h1, hlen, List.append_assoc]
  · intro hempty
    subst hempty
    simp [fetchAllRepositories, bind_eq, hresp, deferClose, emit, hdec, countLanguages,
      pure_eq]

/-- C3: whenever the answer to the request of `fetchAllRepositories` decodes
to a list of repositories, the map `languages` that `fetchAllRepositories`
builds sends each language `L` to the number of repositories of the list whose
`Language` is `L`, and holds an entry for `L` exactly when that number is
positive; for a non-empty list the lines it prints under `Languages:` are the
entries of that map; the languages Go, Go, Rust give the lines Go 2 and Rust 1;
and a run on any permutation of the list builds a map with the same entries. -/
theorem histogram_counts_languages (env : Env) (w w1 : World) (resp : Response)
    (repos : List Repository)
    (hresp : makeGitHubRequest env (apiURL ++ "/user/repos") w = .ok (.ok resp) w1)
    (hdec : env.decodeRepositories resp.Body = .ok repos) :
    ∃ (m : Languages) (w2 : World),
      countLanguages repos [] { w1 with trace := w1.trace ++ [.Decode] } = .ok m w2
      ∧ (∀ L, mapGet m L = languageCount repos L)
      ∧ (∀ L n, (L, n) ∈ m ↔ n = languageCount repos L ∧ 0 < n)
      ∧ (repos ≠ [] → fetchAllRepositories env w = .ok ()
          { w1 with trace := w1.trace ++ [.Decode] ++ repos.flatMap renderListed
              ++ [if repos.length = 1 then .Println .GREEN "1 repository found!"
                  else .Printf .GREEN "%d repositories found!\n" [.int repos.length],
                .Println .YELLOW "Languages:"]
              ++ (m.map fun e => Event.Printf .CYAN "  %s: %d\n" [.str e.1, .int e.2])
              ++ [.Close] })
      ∧ (repos = [] → fetchAllRepositories env w = .ok ()
          { w1 with trace := w1.trace
              ++ [.Decode, .Println .RED "No repositories found!", .Close] })
      ∧ fetchAllRepositories (envListing [repoIn "Go", repoIn "Go", repoIn "Rust"]) worldToken
          = .ok () ⟨.present "secret" true true, true, "secret",
              [.ReadFile, .httpGet "https://api.github.com/user/repos" "token secret", .Decode]
                ++ [repoIn "Go", repoIn "Go", repoIn "Rust"].flatMap renderListed
                ++ [.Printf .GREEN "%d repositories found!\n" [.int 3],
                    .Println .YELLOW "Languages:",
                    .Printf .CYAN "  %s: %d\n" [.str "Go", .int 2],
                    .Printf .CYAN "  %s: %d\n" [.str "Rust", .int 1],
                    .Close]⟩
      ∧ ∀ (env2 : Env) (v v1 : World) (resp2 : Response) (repos2 : List Repository),
          repos.Perm repos2 →
          makeGitHubRequest env2 (apiURL ++ "/user/repos") v = .ok (.ok resp2) v1 →
          env2.decodeRepositories resp2.Body = .ok repos2 →
          ∃ (m2 : Languages) (v2 : World),
            countLanguages repos2 [] { v1 with trace := v1.trace ++ [.Decode] } = .ok m2 v2
            ∧ (∀ L, mapGet m2 L = mapGet m L)
            ∧ (∀ L n, (L, n) ∈ m2 ↔ (L, n) ∈ m)
            ∧ (repos2 ≠ [] → fetchAllRepositories env2 v = .ok ()
                { v1 with trace := v1.trace ++ [.Decode] ++ repos2.flatMap renderListed
                    ++ [if repos2.length = 1 then .Println .GREEN "1 repository found!"
                        else .Printf .GREEN "%d repositories found!\n" [.int repos2.length],
                      .Println .YELLOW "Languages:"]
                    ++ (m2.map fun e => Event.Printf .CYAN "  %s: %d\n" [.str e.1, .int e.2])
                    ++ [.Close] }) := by
  obtain ⟨m, w2, hrun, hwf, hget, hprint, hempty⟩ :=
    fetchAllRepositories_builds_histogram env w w1 resp repos hresp hdec
  refine ⟨m, w2, hrun, hget, ?_, hprint, hempty, rfl, ?_⟩
  · intro L n
    rw [mem_iff_mapGet m hwf L n, hget L]
  · intro env2 v v1 resp2 repos2 hperm hresp2 hdec2
    obtain ⟨m2, v2, hrun2, hwf2, hget2, hprint2, _⟩ :=
      fetchAllRepositories_builds_histogram env2 v v1 resp2 repos2 hresp2 hdec2
    have hget3 : ∀ L, mapGet m2 L = mapGet m L := by
      intro L
      rw [hget L, hget2 L]
      exact (List.Perm.countP_eq _ hperm).symm
    refine ⟨m2, v2, hrun2, hget3, ?_, hprint2⟩
    intro L n
    rw [mem_iff_mapGet m hwf L n, mem_iff_mapGet m2 hwf2 L n, hget3 L]

/-- Witness of `histogram_counts_languages`: the answer lists repositories in
Go, Go, Rust; the answer of a second run lists them as Rust, Go, Go, a
permutation, and that run builds a map with the same counts. -/
theorem histogram_counts_languages_witness :
    [repoIn "Go", repoIn "Go", repoIn "Rust"].Perm [repoIn "Rust", repoIn "Go", repoIn "Go"]
      ∧ ∃ (m : Languages) (w2 : World),
          countLanguages [repoIn "Go", repoIn "Go", repoIn "Rust"] []
              ⟨.present "secret" true true, true, "secret",
                [.ReadFile, .httpGet "https://api.github.com/user/repos" "token secret",
                  .Decode]⟩
            = .ok m w2
          ∧ mapGet m "Go" = 2 ∧ mapGet m "Rust" = 1
          ∧ ∃ (m2 : Languages) (v2 : World),
              countLanguages [repoIn "Rust", repoIn "Go", repoIn "Go"] []
                  ⟨.present "secret" true true, true, "secret",
                    [.ReadFile, .httpGet "https://api.github.com/user/repos" "token secret",
                      .Decode]⟩
                = .ok m2 v2
              ∧ ∀ L, mapGet m2 L = mapGet m L := by
  have hperm : [repoIn "Go", repoIn "Go", repoIn "Rust"].Perm
      [repoIn "Rust", repoIn "Go", repoIn "Go"] := by decide
  obtain ⟨m, w2, hrun, hget, _, _, _, _, h⟩ :=
    histogram_counts_languages (envListing [repoIn "Go", repoIn "Go", repoIn "Rust"])
      worldToken _ _ [repoIn "Go", repoIn "Go", repoIn "Rust"] rfl rfl
  obtain ⟨m2, v2, hrun2, hget2, _⟩ :=
    h (envListing [repoIn "Rust", repoIn "Go", repoIn "Go"]) worldToken _ _ _ hperm rfl rfl
  refine ⟨hperm, m, w2, hrun, ?_, ?_, m2, v2, hrun2, hget2⟩
  · rw [hget "Go"]
    decide
  · rw [hget "Rust"]
    decide

end GithubAuto
